import Mathlib

/-!
# Verification of the `auction` token/reputation ledger and auction engine

Shallow embedding of the Go package `internal/tokens` of the repository
`christopherwong-hinge/auction`.  The DynamoDB tokens table is modelled as a
partial map from partition keys (strings) to account rows; every operation is
a pure function from a store to a result and a new store, mirroring the
sequential (store-available) execution of the Go code.

Modelling conventions:
* Go `int64` is modelled as `Int` (no claim exercises overflow near 2^63).
* Go `float64` arithmetic in `computeBidcost` is modelled faithfully,
  operation by operation: each intermediate result is an exact rational
  rounded to IEEE-754 binary64 (53-bit significand, round to nearest, ties
  to even) by `roundF`; the Go conversion `int64(x)` truncates toward
  zero, modelled by `ratTrunc`.  The model covers the binary64 normal
  range (the pricing computation never comes near subnormals or overflow
  for any input a claim quantifies over).
* `calculateScore` is modelled with exact rationals; the claims that
  mention scores only use them at points where the float64 and exact
  computations coincide (score 0 at priority 1 / reputation 0, where every
  intermediate float is exact, and equality or sign of scores of
  identically-priced bids).
* Timestamp fields (`last_refill_time`, `created_at_ms`, `updated_at_ms`)
  are omitted: no claim mentions them and no operation branches on them.
* A DynamoDB `map[int]int` attribute unmarshals missing keys to `0`, so
  `priority_usage` is modelled as a total function `Int → Int`.
* The loop variable capture `winningBid = &bid` in `RunAuction` is modelled
  with per-iteration loop-variable semantics (Go ≥ 1.22).
-/

-- The Batteries `Rat` arithmetic operations are `@[irreducible]`, which stops
-- `decide` from evaluating concrete prices and scores; restore reducibility
-- locally so that the embedding stays executable inside proofs.
attribute [local semireducible] Rat.add Rat.mul Rat.sub Rat.inv

set_option maxRecDepth 8000
set_option maxHeartbeats 16000000

/-- Fuelled binary length (the fuel keeps the recursion structural so that
kernel evaluation inside `decide` works): number of halvings to reach 0. -/
def bitLenFuel : ℕ → ℕ → ℕ
  | 0, _ => 0
  | fuel + 1, n => if n = 0 then 0 else 1 + bitLenFuel fuel (n / 2)

/-- Binary length of a natural number: `2 ^ (bitLen n - 1) ≤ n < 2 ^ bitLen n`
for `n > 0` (the number itself is always enough fuel). -/
def bitLen (n : ℕ) : ℕ := bitLenFuel n n

/-- `2 ^ e` as a rational, for an integer exponent. -/
def pow2 (e : ℤ) : ℚ :=
  if 0 ≤ e then ((2 ^ e.toNat : ℕ) : ℚ) else 1 / ((2 ^ (-e).toNat : ℕ) : ℚ)

/-- Round a rational to the nearest integer, ties to even. -/
def rne (x : ℚ) : ℤ :=
  let n := ⌊x⌋
  let frac := x - (n : ℚ)
  if frac < 1 / 2 then n
  else if 1 / 2 < frac then n + 1
  else if n % 2 = 0 then n else n + 1

/-- IEEE-754 binary64 rounding of an exact rational: scale the value so its
significand lies in `[2^52, 2^53)`, round to the nearest 53-bit significand
with ties to even, and scale back.  This is the result of every `float64`
arithmetic operation in the normal range (each IEEE operation computes the
exact value of its operands and then rounds it like this); subnormals and
overflow are outside the range the pricing computation can reach for the
inputs the claims quantify over. -/
def roundF (q : ℚ) : ℚ :=
  if q = 0 then 0
  else
    let aq : ℚ := |q|
    let e0 : ℤ := (bitLen aq.num.natAbs : ℤ) - (bitLen aq.den : ℤ)
    let e : ℤ := if aq < pow2 e0 then e0 - 1 else e0
    let m : ℤ := rne (aq * pow2 (52 - e))
    (if q < 0 then -(m : ℚ) else (m : ℚ)) * pow2 (e - 52)

/-- Go truncation toward zero of a `float64` to `int64`
(`int64(x)` in `computeBidcost`): ceiling for negative values,
floor otherwise. -/
def ratTrunc (q : ℚ) : ℤ :=
  if q < 0 then ⌈q⌉ else ⌊q⌋

/-- The static priority → base-cost table `costMap` from `tokens.go`.
A Go map lookup of an absent key yields the zero value `0`. -/
def costMap (priority : ℤ) : ℤ :=
  if priority = 1 then 1
  else if priority = 2 then 1
  else if priority = 3 then 1
  else if priority = 4 then 5
  else if priority = 5 then 5
  else if priority = 6 then 5
  else if priority = 7 then 7
  else if priority = 8 then 7
  else if priority = 9 then 7
  else if priority = 10 then 10
  else 0

/-- `computeBidcost` from `tokens.go`, with its `float64` arithmetic
modelled operation by operation (each intermediate rounded to binary64 by
`roundF`):
`priceMultiplier := minMultiplier + (maxMultiplier-minMultiplier)*(1-float64(reputation)/100)`;
`cost := float64(costMap[bid.Priority]) * priceMultiplier`; returned as
`int64(cost)` (truncation toward zero).  The constants 1.0, 2.5, 100 and
the base costs are exactly representable; `float64(reputation)` is exact
for every |reputation| below 2^53. -/
def computeBidcost (priority : ℤ) (reputation : ℤ) : ℤ :=
  let minMultiplier : ℚ := 1        -- 1.0: no price increase at max reputation
  let maxMultiplier : ℚ := 5 / 2    -- 2.5: 2.5x price increase at minimum reputation
  let repF : ℚ := roundF (reputation : ℚ)              -- float64(reputation)
  let t1 : ℚ := roundF (repF / 100)                    -- float64(reputation)/100
  let t2 : ℚ := roundF (1 - t1)                        -- 1 - ...
  let t3 : ℚ := roundF (maxMultiplier - minMultiplier) -- 2.5 - 1.0 (= 1.5, exact)
  let t4 : ℚ := roundF (t3 * t2)                       -- (...) * (1 - ...)
  let priceMultiplier : ℚ := roundF (minMultiplier + t4)
  let cost : ℚ := roundF (roundF (costMap priority : ℚ) * priceMultiplier)
  ratTrunc cost

/-- `calculateScore` from `tokens.go`:
`0.7 * ((priority-1)/9*100) + 0.3 * (reputation/100*100)`
with `maxReputation = 100`. -/
def calculateScore (priority : ℤ) (reputation : ℤ) : ℚ :=
  let maxReputation : ℚ := 100
  let normalizedPriority : ℚ := ((priority : ℚ) - 1) / 9 * 100
  let normalizedReputation : ℚ := (reputation : ℚ) / maxReputation * 100
  (7 / 10) * normalizedPriority + (3 / 10) * normalizedReputation

/-- Modelled from the spec (§4.1), for comparison with `computeBidcost`:
base costs by tier (1–3 → 1, 4–6 → 5, 7–9 → 7, 10 → 10). -/
def specBaseCost (priority : ℤ) : ℤ :=
  if 1 ≤ priority ∧ priority ≤ 3 then 1
  else if 4 ≤ priority ∧ priority ≤ 6 then 5
  else if 7 ≤ priority ∧ priority ≤ 9 then 7
  else if priority = 10 then 10
  else 0

/-- Modelled from the spec (claim C8's formula), for comparison with
`computeBidcost`: `floor(baseCost * (1.0 + 1.5 * (1 - reputation/100)))`. -/
def specCost (priority : ℤ) (reputation : ℤ) : ℤ :=
  ⌊(specBaseCost priority : ℚ) * (1 + (3 / 2) * (1 - (reputation : ℚ) / 100))⌋

/-- The pricing pipeline of `computeBidcost` as a function of the base cost
(the tiers 1–3, 4–6 and 7–9 share one base each, so exhaustive pricing
checks are stated once per base): `computeBidcost p r` is definitionally
`costOfBase (costMap p) r`. -/
def costOfBase (base : ℤ) (reputation : ℤ) : ℤ :=
  let minMultiplier : ℚ := 1
  let maxMultiplier : ℚ := 5 / 2
  let repF : ℚ := roundF (reputation : ℚ)
  let t1 : ℚ := roundF (repF / 100)
  let t2 : ℚ := roundF (1 - t1)
  let t3 : ℚ := roundF (maxMultiplier - minMultiplier)
  let t4 : ℚ := roundF (t3 * t2)
  let priceMultiplier : ℚ := roundF (minMultiplier + t4)
  ratTrunc (roundF (roundF (base : ℚ) * priceMultiplier))

/-- The spec's floor formula as a function of the base cost:
`specCost p r` is definitionally `specFloorOfBase (specBaseCost p) r`. -/
def specFloorOfBase (base : ℤ) (reputation : ℤ) : ℤ :=
  ⌊(base : ℚ) * (1 + (3 / 2) * (1 - (reputation : ℚ) / 100))⌋

/-- A row of the `tokens` table (`TokenDBRow` in `tokens.go`).  Timestamp
fields are omitted (no claim concerns them); `priority_usage` unmarshals
absent keys to `0`, so it is a total function. -/
structure Account where
  tokenBalance : ℤ
  reputationScore : ℤ
  priorityUsage : ℤ → ℤ

/-- An ephemeral bid (`Bid` in `tokens.go`). -/
structure Bid where
  teamID : String
  userID : String
  priority : ℤ

/-- The `tokens` table: partition key → row. -/
def Store := String → Option Account

def emptyStore : Store := fun _ => none

/-- `GetTokenPK` from `keys.go`: `fmt.Sprintf("team#%s", teamID)`. -/
def GetTokenPK (teamID : String) : String := "team#" ++ teamID

/-- Writing one row at one key (a DynamoDB `PutItem`/`UpdateItem` upsert). -/
def setStore (s : Store) (k : String) (a : Account) : Store :=
  fun k2 => if k2 = k then some a else s k2

/-- The error outcomes the embedded operations can surface. -/
inductive TokenErr where
  /-- `"team not found: %s"` from `GetTokenBalance`. -/
  | teamNotFound (teamID : String)
  /-- `"insufficient token balance: %d"` from `SpendTokens`. -/
  | insufficientBalance (balance : ℤ)
  /-- `"error updating token balance: %v"`: the conditional write was
  rejected at the store. -/
  | updateFailed
  /-- The bids-table `PutItem` failed (store unavailable). -/
  | storeUnavailable
  /-- `"auction had no winner"` from `RunAuction`. -/
  | noWinner
  deriving DecidableEq

instance {ε α : Type} [DecidableEq ε] [DecidableEq α] :
    DecidableEq (Except ε α) := fun x y =>
  match x, y with
  | .error a, .error b =>
    if h : a = b then .isTrue (by rw [h])
    else .isFalse (by intro hc; injection hc; exact h (by assumption))
  | .error _, .ok _ => .isFalse (by intro hc; exact Except.noConfusion hc)
  | .ok _, .error _ => .isFalse (by intro hc; exact Except.noConfusion hc)
  | .ok a, .ok b =>
    if h : a = b then .isTrue (by rw [h])
    else .isFalse (by intro hc; injection hc; exact h (by assumption))

/-- The initial row written by `InitializeTokens`: `InitialTokenCount = 1000`,
`InitialReputationScore = 100`, `InitialPriorityUsage` all zero. -/
def initialAccount : Account :=
  { tokenBalance := 1000, reputationScore := 100, priorityUsage := fun _ => 0 }

/-- `InitializeTokens` from `tokens.go`: for each team, a conditional
`PutItem` with `attribute_not_exists(pk)` at key `GetTokenPK teamID`; when
the row already exists the conditional check fails and the loop continues
(idempotent).  With the store available the operation always succeeds. -/
def InitializeTokens (s : Store) (teams : List String) : Store :=
  teams.foldl
    (fun st teamID =>
      match st (GetTokenPK teamID) with
      | some _ => st
      | none => setStore st (GetTokenPK teamID) initialAccount)
    s

/-- `GetTokenBalance`: a `GetItem` at `GetTokenPK teamID`, returning
`(token_balance, reputation_score)` or the team-not-found error. -/
def GetTokenBalance (s : Store) (teamID : String) :
    Except TokenErr (ℤ × ℤ) :=
  match s (GetTokenPK teamID) with
  | none => .error (.teamNotFound teamID)
  | some row => .ok (row.tokenBalance, row.reputationScore)

/-- `RecordBid` from the bids recorder: builds the bid row and issues a
`PutItem` into the bids table.  `putOk = false` models the store being
unavailable for that put.  The source assigns the `PutItem` error to `err`
and then executes `return nil`, so the function returns success whether or
not the put failed. -/
def RecordBid (putOk : Bool) : Except TokenErr Unit :=
  let _err : Except TokenErr Unit :=
    if putOk then .ok () else .error .storeUnavailable
  .ok ()

/-- `SpendTokens` from `tokens.go`.  Reads `(balance, reputation)` with
`GetTokenBalance`, computes the cost, early-returns the insufficient-balance
error when `balance < bidCost`, then performs the single conditional
`UpdateItem` (`token_balance >= :amount` checked at write time; one atomic
write decrements `token_balance` and increments
`priority_usage[bid.priority]`).  After a successful debit, if the
post-update `priority_usage[10]` exceeds 5, a second, separate unconditional
`UpdateItem` decrements `reputation_score` by 10.  Returns the post-debit
balance (`ReturnValuesUpdatedNew`). -/
def SpendTokens (s : Store) (bid : Bid) : Except TokenErr ℤ × Store :=
  match GetTokenBalance s bid.teamID with
  | .error e => (.error e, s)
  | .ok (balance, reputation) =>
    let bidCost := computeBidcost bid.priority reputation
    if balance < bidCost then
      (.error (.insufficientBalance balance), s)
    else
      match s (GetTokenPK bid.teamID) with
      | none => (.error .updateFailed, s)
      | some row =>
        if row.tokenBalance < bidCost then (.error .updateFailed, s)
        else
          let row2 : Account :=
            { row with
              tokenBalance := row.tokenBalance - bidCost
              priorityUsage := fun p =>
                if p = bid.priority then row.priorityUsage p + 1
                else row.priorityUsage p }
          let s2 := setStore s (GetTokenPK bid.teamID) row2
          if row2.priorityUsage 10 > 5 then
            (.ok row2.tokenBalance,
             setStore s2 (GetTokenPK bid.teamID)
               { row2 with reputationScore := row2.reputationScore - 10 })
          else
            (.ok row2.tokenBalance, s2)

/-- The bid loop of `RunAuction`: walks the batch in input order carrying
the running best bid and `maxScore` (initially `0`); a later bid replaces
the current best only when its score is strictly greater. -/
def auctionLoop (putOk : Bool) (s : Store) :
    List Bid → Option Bid → ℚ → Except TokenErr (Option Bid)
  | [], best, _ => .ok best
  | bid :: rest, best, maxScore =>
    match GetTokenBalance s bid.teamID with
    | .error e => .error e
    | .ok (balance, reputation) =>
      let bidScore := calculateScore bid.priority reputation
      let bidCost := computeBidcost bid.priority reputation
      match RecordBid putOk with
      | .error e => .error e
      | .ok _ =>
        if balance < bidCost then
          auctionLoop putOk s rest best maxScore
        else if bidScore > maxScore then
          auctionLoop putOk s rest (some bid) bidScore
        else
          auctionLoop putOk s rest best maxScore

/-- `RunAuction` from `tokens.go`: score, price and record every bid,
skip the unaffordable ones, keep the strictly best score, then settle the
winner with `SpendTokens`; with no winner the round fails. -/
def RunAuction (putOk : Bool) (s : Store) (bids : List Bid) :
    Except TokenErr String × Store :=
  match auctionLoop putOk s bids none 0 with
  | .error e => (.error e, s)
  | .ok none => (.error .noWinner, s)
  | .ok (some winningBid) =>
    match SpendTokens s winningBid with
    | (.error e, s2) => (.error e, s2)
    | (.ok _, s2) => (.ok winningBid.teamID, s2)

/-- `RefillTokens` from the source: for each team an unconditional
`UpdateItem` setting `token_balance` to `InitialTokenCount` and
`reputation_score` to `InitialReputationScore` — keyed by the *raw*
`teamID`, not `GetTokenPK teamID`.  DynamoDB `UpdateItem` upserts: on an
absent key it creates the row (modelled with a zero usage map). -/
def RefillTokens (s : Store) (teams : List String) : Store :=
  teams.foldl
    (fun st teamID =>
      match st teamID with
      | some row =>
        setStore st teamID
          { row with tokenBalance := 1000, reputationScore := 100 }
      | none =>
        setStore st teamID
          { tokenBalance := 1000, reputationScore := 100,
            priorityUsage := fun _ => 0 })
    s

/-- The stores reachable from the empty store through the public
operations. -/
inductive Reachable : Store → Prop where
  | empty : Reachable emptyStore
  | initTokens (teams : List String) {s : Store} :
      Reachable s → Reachable (InitializeTokens s teams)
  | spend (bid : Bid) {s : Store} :
      Reachable s → Reachable (SpendTokens s bid).2
  | refill (teams : List String) {s : Store} :
      Reachable s → Reachable (RefillTokens s teams)
  | auction (putOk : Bool) (bids : List Bid) {s : Store} :
      Reachable s → Reachable (RunAuction putOk s bids).2

/-- The row written by a successful debit: balance decremented by the cost,
the bid's priority-usage counter incremented, and the reputation penalized
by 10 exactly when the post-update priority-10 count exceeds 5. -/
def debitedRow (row : Account) (priority cost : ℤ) : Account :=
  { tokenBalance := row.tokenBalance - cost
    reputationScore :=
      if 5 < (if (10 : ℤ) = priority then row.priorityUsage 10 + 1
              else row.priorityUsage 10)
      then row.reputationScore - 10
      else row.reputationScore
    priorityUsage := fun p =>
      if p = priority then row.priorityUsage p + 1 else row.priorityUsage p }

/-- Folding a sequence of debits over a store. -/
def foldSpend (s : Store) (bids : List Bid) : Store :=
  bids.foldl (fun st b => (SpendTokens st b).2) s

/-- Six successful priority-10 debits for `team`, followed by nine
priority-1 debits: the sixth debit pushes `priorityUsage[10]` to 6, and
every debit from the sixth on re-applies the 10-point reputation penalty,
driving the reputation from 100 down to 0 (balance ends at 928). -/
def repDrain (team : String) : List Bid :=
  List.replicate 6 ⟨team, "u", 10⟩ ++ List.replicate 9 ⟨team, "u", 1⟩

/-- Team `t` after initialization and six priority-10 debits:
balance 940, reputation 90 (one penalty), `priorityUsage[10] = 6`. -/
def c2Store : Store :=
  foldSpend (InitializeTokens emptyStore ["t"])
    (List.replicate 6 ⟨"t", "u", 10⟩)

/-- Team `a` driven to reputation 0: the reachable state behind the C4
counterexample. -/
def c4Store : Store := foldSpend (InitializeTokens emptyStore ["a"]) (repDrain "a")

/-- Teams `a` and `b` both driven to reputation 0: the reachable state
behind the C6 counterexample. -/
def c6Store : Store :=
  foldSpend (foldSpend (InitializeTokens emptyStore ["a", "b"]) (repDrain "a"))
    (repDrain "b")

/-- Every stored row has reputation at most 100. -/
def RepOK (s : Store) : Prop :=
  ∀ k row, s k = some row → row.reputationScore ≤ 100

/-! ## Pricing lemmas (claims C8 and C9) -/

lemma computeBidcost_eq_costOfBase (p r : ℤ) :
    computeBidcost p r = costOfBase (costMap p) r := rfl

lemma specCost_eq_specFloorOfBase (p r : ℤ) :
    specCost p r = specFloorOfBase (specBaseCost p) r := rfl

lemma costOfBase_floor_1 : ∀ r ∈ Finset.Icc (0 : ℤ) 100,
    0 ≤ costOfBase 1 r ∧ specFloorOfBase 1 r - 1 ≤ costOfBase 1 r ∧
    costOfBase 1 r ≤ specFloorOfBase 1 r := by decide

lemma costOfBase_floor_5 : ∀ r ∈ Finset.Icc (0 : ℤ) 100,
    0 ≤ costOfBase 5 r ∧ specFloorOfBase 5 r - 1 ≤ costOfBase 5 r ∧
    costOfBase 5 r ≤ specFloorOfBase 5 r := by decide

lemma costOfBase_floor_7 : ∀ r ∈ Finset.Icc (0 : ℤ) 100,
    0 ≤ costOfBase 7 r ∧ specFloorOfBase 7 r - 1 ≤ costOfBase 7 r ∧
    costOfBase 7 r ≤ specFloorOfBase 7 r := by decide

lemma costOfBase_floor_10 : ∀ r ∈ Finset.Icc (0 : ℤ) 100,
    0 ≤ costOfBase 10 r ∧ specFloorOfBase 10 r - 1 ≤ costOfBase 10 r ∧
    costOfBase 10 r ≤ specFloorOfBase 10 r := by decide

lemma costOfBase_bounds_1 : ∀ r ∈ Finset.Icc (0 : ℤ) 100,
    1 ≤ costOfBase 1 r ∧ costOfBase 1 r ≤ 2 := by decide

lemma costOfBase_bounds_5 : ∀ r ∈ Finset.Icc (0 : ℤ) 100,
    5 ≤ costOfBase 5 r ∧ costOfBase 5 r ≤ 12 := by decide

lemma costOfBase_bounds_7 : ∀ r ∈ Finset.Icc (0 : ℤ) 100,
    7 ≤ costOfBase 7 r ∧ costOfBase 7 r ≤ 17 := by decide

lemma costOfBase_bounds_10 : ∀ r ∈ Finset.Icc (0 : ℤ) 100,
    10 ≤ costOfBase 10 r ∧ costOfBase 10 r ≤ 25 := by decide

/-- Lifts a per-base exhaustive bound with literal endpoints to the
endpoint form `costOfBase b 100 ≤ costOfBase b r ≤ costOfBase b 0`. -/
lemma costOfBase_endpoint_bounds {b lo hi : ℤ} (r : ℤ)
    (hmem : r ∈ Finset.Icc (0 : ℤ) 100)
    (h : ∀ r2 ∈ Finset.Icc (0 : ℤ) 100,
      lo ≤ costOfBase b r2 ∧ costOfBase b r2 ≤ hi)
    (e100 : costOfBase b 100 = lo) (e0 : costOfBase b 0 = hi) :
    costOfBase b 100 ≤ costOfBase b r ∧ costOfBase b r ≤ costOfBase b 0 :=
  ⟨le_trans (le_of_eq e100) (h r hmem).1,
   le_trans (h r hmem).2 (le_of_eq e0.symm)⟩

/-- C8 (counterexample): the program's cost is not the exact floor formula
and is not always non-negative.  At priority 10, reputation 80 — inside the
nominal [0,100] range — the float64 computation yields the multiplier
1.2999999999999998, the product 12.999999999999998 and hence cost 12, while
`floor(10 * (1.0 + 1.5 * (1 - 80/100))) = 13`.  At reputation 200 the
multiplier is negative: the cost at priority 10 is -5 (violating
"non-negative"), and at priority 1 the truncation toward zero gives
`0 ≠ -1 = floor` (violating "equal to floor"). -/
theorem computeBidcost_floor_formula_fails :
    computeBidcost 10 80 = 12 ∧ specCost 10 80 = 13 ∧
    computeBidcost 10 200 = -5 ∧ computeBidcost 10 200 < 0 ∧
    computeBidcost 1 200 = 0 ∧ specCost 1 200 = -1 := by decide

/-- C8 (amended): for every priority 1–10 and every reputation in the
nominal range [0,100], the pricing function returns a non-negative integer
cost that agrees with `floor(baseCost * (1.0 + 1.5 * (1 - reputation/100)))`
(base costs 1 for tiers 1–3, 5 for 4–6, 7 for 7–9, 10 for priority 10) up
to one unit downward: the cost equals the floor value except where float64
rounding lands just below an integer boundary, where it is one less (e.g.
12 instead of 13 at priority 10, reputation 80).  Outside [0,100] the
claim's unclamped quantification fails outright: above reputation 166 the
multiplier is negative, so the cost can be negative and the conversion
truncates toward zero instead of flooring. -/
theorem computeBidcost_nonneg_within_one_of_floor (p r : ℤ)
    (hp1 : 1 ≤ p) (hp2 : p ≤ 10) (hr0 : 0 ≤ r) (hr100 : r ≤ 100) :
    0 ≤ computeBidcost p r ∧ specCost p r - 1 ≤ computeBidcost p r ∧
    computeBidcost p r ≤ specCost p r := by
  have hmem : r ∈ Finset.Icc (0 : ℤ) 100 := Finset.mem_Icc.mpr ⟨hr0, hr100⟩
  interval_cases p
  · exact costOfBase_floor_1 r hmem
  · exact costOfBase_floor_1 r hmem
  · exact costOfBase_floor_1 r hmem
  · exact costOfBase_floor_5 r hmem
  · exact costOfBase_floor_5 r hmem
  · exact costOfBase_floor_5 r hmem
  · exact costOfBase_floor_7 r hmem
  · exact costOfBase_floor_7 r hmem
  · exact costOfBase_floor_7 r hmem
  · exact costOfBase_floor_10 r hmem

/-- C8 (witness). -/
theorem computeBidcost_nonneg_within_one_of_floor_witness :
    0 ≤ computeBidcost 10 50 ∧ specCost 10 50 - 1 ≤ computeBidcost 10 50 ∧
    computeBidcost 10 50 ≤ specCost 10 50 :=
  computeBidcost_nonneg_within_one_of_floor 10 50 (by decide) (by decide)
    (by decide) (by decide)

/-- C9: for every priority in 1–10 and all reputations r in [0,100], the
price is monotonically non-increasing in reputation:
`price(priority, 100) ≤ price(priority, r) ≤ price(priority, 0)`.
Settled by exhaustive evaluation of the binary64 pricing model over the
whole finite domain. -/
theorem computeBidcost_reputation_bounds (p r : ℤ)
    (hp1 : 1 ≤ p) (hp2 : p ≤ 10) (hr0 : 0 ≤ r) (hr100 : r ≤ 100) :
    computeBidcost p 100 ≤ computeBidcost p r ∧
    computeBidcost p r ≤ computeBidcost p 0 := by
  have hmem : r ∈ Finset.Icc (0 : ℤ) 100 := Finset.mem_Icc.mpr ⟨hr0, hr100⟩
  interval_cases p
  · exact costOfBase_endpoint_bounds r hmem costOfBase_bounds_1 (by decide) (by decide)
  · exact costOfBase_endpoint_bounds r hmem costOfBase_bounds_1 (by decide) (by decide)
  · exact costOfBase_endpoint_bounds r hmem costOfBase_bounds_1 (by decide) (by decide)
  · exact costOfBase_endpoint_bounds r hmem costOfBase_bounds_5 (by decide) (by decide)
  · exact costOfBase_endpoint_bounds r hmem costOfBase_bounds_5 (by decide) (by decide)
  · exact costOfBase_endpoint_bounds r hmem costOfBase_bounds_5 (by decide) (by decide)
  · exact costOfBase_endpoint_bounds r hmem costOfBase_bounds_7 (by decide) (by decide)
  · exact costOfBase_endpoint_bounds r hmem costOfBase_bounds_7 (by decide) (by decide)
  · exact costOfBase_endpoint_bounds r hmem costOfBase_bounds_7 (by decide) (by decide)
  · exact costOfBase_endpoint_bounds r hmem costOfBase_bounds_10 (by decide) (by decide)

/-- C9 (witness). -/
theorem computeBidcost_reputation_bounds_witness :
    computeBidcost 5 100 ≤ computeBidcost 5 50 ∧
    computeBidcost 5 50 ≤ computeBidcost 5 0 :=
  computeBidcost_reputation_bounds 5 50 (by decide) (by decide) (by decide)
    (by decide)

/-! ## Debit lemmas (claims C1, C5, C7) -/

lemma costMap_eq_zero_of_out_of_range (p : ℤ) (hp : p < 1 ∨ 10 < p) :
    costMap p = 0 := by
  unfold costMap
  split_ifs <;> omega

lemma roundF_zero : roundF 0 = 0 := rfl

lemma computeBidcost_out_of_range (p r : ℤ) (hp : p < 1 ∨ 10 < p) :
    computeBidcost p r = 0 := by
  simp [computeBidcost, costMap_eq_zero_of_out_of_range p hp, roundF_zero,
    ratTrunc]

lemma SpendTokens_fail (s : Store) (bid : Bid) (row : Account)
    (h : s (GetTokenPK bid.teamID) = some row)
    (hlt : row.tokenBalance < computeBidcost bid.priority row.reputationScore) :
    SpendTokens s bid = (.error (.insufficientBalance row.tokenBalance), s) := by
  simp only [SpendTokens, GetTokenBalance, h]
  rw [if_pos hlt]

lemma SpendTokens_success (s : Store) (bid : Bid) (row : Account)
    (h : s (GetTokenPK bid.teamID) = some row)
    (hle : computeBidcost bid.priority row.reputationScore ≤ row.tokenBalance) :
    (SpendTokens s bid).1
      = .ok (row.tokenBalance - computeBidcost bid.priority row.reputationScore)
    ∧ (SpendTokens s bid).2 (GetTokenPK bid.teamID)
      = some (debitedRow row bid.priority
          (computeBidcost bid.priority row.reputationScore))
    ∧ (∀ k, k ≠ GetTokenPK bid.teamID → (SpendTokens s bid).2 k = s k) := by
  have hlt := not_lt.mpr hle
  simp only [SpendTokens, GetTokenBalance, h]
  simp only [if_neg hlt]
  by_cases hpen :
      5 < (if (10 : ℤ) = bid.priority then row.priorityUsage 10 + 1
           else row.priorityUsage 10)
  · simp only [gt_iff_lt, if_pos hpen]
    refine ⟨by simp, ?_, ?_⟩
    · simp [setStore, debitedRow, if_pos hpen]
    · intro k hk
      simp [setStore, hk]
  · simp only [gt_iff_lt, if_neg hpen]
    refine ⟨by simp, ?_, ?_⟩
    · simp [setStore, debitedRow, if_neg hpen]
    · intro k hk
      simp [setStore, hk]

/-- C1: a debit never leaves the team's balance below zero.  When the cost
exceeds the balance the operation fails with the insufficient-balance error
and the whole store — in particular the balance and the priority-usage
counters — is unchanged; otherwise the single conditional write decrements
the balance by exactly the cost (leaving it non-negative) and increments
`priorityUsage[bid.priority]` by exactly 1, touching no other usage counter
and no other key. -/
theorem SpendTokens_never_overdraws (s : Store) (bid : Bid) (row : Account)
    (h : s (GetTokenPK bid.teamID) = some row) :
    (row.tokenBalance < computeBidcost bid.priority row.reputationScore →
      (SpendTokens s bid).1 = .error (.insufficientBalance row.tokenBalance)
      ∧ (SpendTokens s bid).2 = s)
    ∧ (computeBidcost bid.priority row.reputationScore ≤ row.tokenBalance →
      ∃ row2 : Account,
        (SpendTokens s bid).2 (GetTokenPK bid.teamID) = some row2
        ∧ (SpendTokens s bid).1 = .ok row2.tokenBalance
        ∧ row2.tokenBalance
            = row.tokenBalance - computeBidcost bid.priority row.reputationScore
        ∧ 0 ≤ row2.tokenBalance
        ∧ row2.priorityUsage bid.priority = row.priorityUsage bid.priority + 1
        ∧ (∀ p, p ≠ bid.priority → row2.priorityUsage p = row.priorityUsage p)
        ∧ (∀ k, k ≠ GetTokenPK bid.teamID → (SpendTokens s bid).2 k = s k)) := by
  constructor
  · intro hlt
    rw [SpendTokens_fail s bid row h hlt]
    exact ⟨rfl, rfl⟩
  · intro hle
    obtain ⟨h1, h2, h3⟩ := SpendTokens_success s bid row h hle
    refine ⟨debitedRow row bid.priority
      (computeBidcost bid.priority row.reputationScore), h2, h1, rfl, ?_, ?_, ?_, h3⟩
    · simpa [debitedRow] using sub_nonneg.mpr hle
    · simp [debitedRow]
    · intro p hp
      simp [debitedRow, hp]

/-- C1 (witness): a debit of cost 10 (priority 10, reputation 100) on a
freshly initialized account. -/
theorem SpendTokens_never_overdraws_witness :
    ∃ row2 : Account,
      (SpendTokens (InitializeTokens emptyStore ["a"]) ⟨"a", "u", 10⟩).2
          (GetTokenPK "a") = some row2
      ∧ (SpendTokens (InitializeTokens emptyStore ["a"]) ⟨"a", "u", 10⟩).1
          = .ok row2.tokenBalance
      ∧ row2.tokenBalance = 1000 - computeBidcost 10 100
      ∧ 0 ≤ row2.tokenBalance
      ∧ row2.priorityUsage 10 = 0 + 1
      ∧ (∀ p, p ≠ (10 : ℤ) → row2.priorityUsage p = 0)
      ∧ (∀ k, k ≠ GetTokenPK "a" →
          (SpendTokens (InitializeTokens emptyStore ["a"]) ⟨"a", "u", 10⟩).2 k
            = InitializeTokens emptyStore ["a"] k) :=
  (SpendTokens_never_overdraws (InitializeTokens emptyStore ["a"])
      ⟨"a", "u", 10⟩ initialAccount rfl).2 (by decide)

/-- C5 (counterexample): a bid at priority 11 is not rejected: no
invalid-priority error exists anywhere in the code.  The base-cost map
lookup returns the Go zero value 0, so the computed cost is 0, the debit
succeeds (balance untouched only because the cost is 0), and the
priority-usage counter is written at the out-of-range key 11. -/
theorem SpendTokens_accepts_priority_11 :
    computeBidcost 11 100 = 0
    ∧ (SpendTokens (InitializeTokens emptyStore ["a"]) ⟨"a", "u", 11⟩).1
        = .ok 1000
    ∧ ((SpendTokens (InitializeTokens emptyStore ["a"]) ⟨"a", "u", 11⟩).2
          (GetTokenPK "a")).map (fun row => row.priorityUsage 11) = some 1 := by
  decide

/-- C5 (amended): a bid with priority outside 1–10 is not rejected and no
invalid-priority error exists.  The base-cost table lookup yields the Go
zero value 0, so the computed cost is 0; on an existing account with
non-negative balance the debit succeeds, returns the unchanged balance, and
still increments `priorityUsage` at the out-of-range priority — the store
is accessed and written. -/
theorem SpendTokens_out_of_range_priority (s : Store) (bid : Bid)
    (row : Account) (h : s (GetTokenPK bid.teamID) = some row)
    (hp : bid.priority < 1 ∨ 10 < bid.priority)
    (hbal : 0 ≤ row.tokenBalance) :
    computeBidcost bid.priority row.reputationScore = 0
    ∧ (SpendTokens s bid).1 = .ok row.tokenBalance
    ∧ ((SpendTokens s bid).2 (GetTokenPK bid.teamID)).map
        (fun row2 => row2.priorityUsage bid.priority)
      = some (row.priorityUsage bid.priority + 1) := by
  have hc := computeBidcost_out_of_range bid.priority row.reputationScore hp
  have hle : computeBidcost bid.priority row.reputationScore
      ≤ row.tokenBalance := by rw [hc]; exact hbal
  obtain ⟨h1, h2, _⟩ := SpendTokens_success s bid row h hle
  refine ⟨hc, ?_, ?_⟩
  · rw [h1, hc, sub_zero]
  · rw [h2]
    simp [debitedRow]

/-- C5 (amended, witness). -/
theorem SpendTokens_out_of_range_priority_witness :
    computeBidcost 0 100 = 0
    ∧ (SpendTokens (InitializeTokens emptyStore ["a"]) ⟨"a", "u", 0⟩).1
        = .ok 1000
    ∧ ((SpendTokens (InitializeTokens emptyStore ["a"]) ⟨"a", "u", 0⟩).2
          (GetTokenPK "a")).map (fun row2 => row2.priorityUsage 0)
        = some (0 + 1) :=
  SpendTokens_out_of_range_priority (InitializeTokens emptyStore ["a"])
    ⟨"a", "u", 0⟩ initialAccount rfl (by decide) (by decide)

/-- C7: after every successful debit (at any priority), the reputation is
decremented by exactly 10 when the post-update priority-10 usage count
exceeds 5 (a separate second update), and is left unchanged when that count
is 5 or below.  The rule re-fires on every successful debit while the count
stays above 5. -/
theorem SpendTokens_priority10_penalty (s : Store) (bid : Bid) (row : Account)
    (h : s (GetTokenPK bid.teamID) = some row)
    (hle : computeBidcost bid.priority row.reputationScore ≤ row.tokenBalance) :
    ((SpendTokens s bid).2 (GetTokenPK bid.teamID)).map Account.reputationScore
      = some
        (if 5 < row.priorityUsage 10 + (if bid.priority = 10 then 1 else 0)
         then row.reputationScore - 10
         else row.reputationScore) := by
  obtain ⟨_, h2, _⟩ := SpendTokens_success s bid row h hle
  rw [h2]
  by_cases hp : bid.priority = (10 : ℤ)
  · simp [debitedRow, hp]
  · have hp' : ¬ ((10 : ℤ) = bid.priority) := fun hc => hp hc.symm
    simp [debitedRow, hp, hp']

/-- C7 (witness): the sixth debit at priority 10 pushes the count to 6 and
costs 10 reputation points. -/
theorem SpendTokens_priority10_penalty_witness :
    ((SpendTokens
        (setStore emptyStore (GetTokenPK "a")
          { tokenBalance := 950, reputationScore := 100,
            priorityUsage := fun p => if p = 10 then 5 else 0 })
        ⟨"a", "u", 10⟩).2 (GetTokenPK "a")).map Account.reputationScore
      = some (if 5 < (5 : ℤ) + 1 then 100 - 10 else 100) :=
  SpendTokens_priority10_penalty _ ⟨"a", "u", 10⟩
    { tokenBalance := 950, reputationScore := 100,
      priorityUsage := fun p => if p = 10 then 5 else 0 }
    rfl (by decide)

/-! ## Traces (used by claims C2, C4, C6) -/

lemma Reachable.foldSpend (bids : List Bid) {s : Store} (hs : Reachable s) :
    Reachable (foldSpend s bids) := by
  induction bids generalizing s with
  | nil => exact hs
  | cons b rest ih => exact ih (Reachable.spend b hs)

/-! ## Claim C2: the refill writes to the wrong key -/

/-- C2 (code bug): `RefillTokens` keys its `UpdateItem` by the raw
`teamID`, not `GetTokenPK teamID`, while the account row lives at
`GetTokenPK teamID` — so refilling an existing, reachable team account
leaves its balance at 940 and its reputation at 90 instead of resetting
them to 1000 and 100; the write instead upserts a spurious row at the raw
key `"t"`, which did not exist before. -/
theorem RefillTokens_misses_account_key :
    Reachable c2Store
    ∧ (c2Store (GetTokenPK "t")).map Account.tokenBalance = some 940
    ∧ (c2Store (GetTokenPK "t")).map Account.reputationScore = some 90
    ∧ (c2Store "t").map Account.tokenBalance = none
    ∧ ((RefillTokens c2Store ["t"]) (GetTokenPK "t")).map Account.tokenBalance
        = some 940
    ∧ ((RefillTokens c2Store ["t"]) (GetTokenPK "t")).map Account.reputationScore
        = some 90
    ∧ ((RefillTokens c2Store ["t"]) "t").map Account.tokenBalance = some 1000 :=
  ⟨Reachable.foldSpend _ (Reachable.initTokens ["t"] Reachable.empty),
   by decide, by decide, by decide, by decide, by decide, by decide⟩

/-! ## Claim C3: a failed audit write does not abort the round -/

/-- C3 (code bug): with the bids store unavailable (`putOk = false`, every
audit `PutItem` failing), `RecordBid` still returns success — the source
assigns the `PutItem` error and then executes `return nil` — so the round
does not abort: the bid whose recording failed is still used for winner
selection and settlement, and the auction returns a winner. -/
theorem RunAuction_ignores_recording_failure :
    RecordBid false = .ok ()
    ∧ (RunAuction false (InitializeTokens emptyStore ["a"]) [⟨"a", "u", 5⟩]).1
        = .ok "a"
    ∧ ((RunAuction false (InitializeTokens emptyStore ["a"]) [⟨"a", "u", 5⟩]).2
          (GetTokenPK "a")).map Account.tokenBalance = some 995 := by
  refine ⟨rfl, by decide, by decide⟩

/-! ## Auction-round lemmas (claims C4 and C6) -/

lemma SpendTokens_success_pair (s : Store) (bid : Bid) (row : Account)
    (h : s (GetTokenPK bid.teamID) = some row)
    (hle : computeBidcost bid.priority row.reputationScore ≤ row.tokenBalance) :
    SpendTokens s bid
      = (.ok (row.tokenBalance - computeBidcost bid.priority row.reputationScore),
         (SpendTokens s bid).2) :=
  Prod.ext ((SpendTokens_success s bid row h hle).1) rfl

/-- C4 (counterexample): in a reachable state team `a` has reputation 0 and
balance 928; its single bid at priority 1 is affordable (cost 2) and the
team exists, yet the round fails with no winner: the bid's score is 0,
which is not strictly greater than the initial running maximum of 0. -/
theorem RunAuction_single_affordable_bid_no_winner :
    Reachable c4Store
    ∧ (c4Store (GetTokenPK "a")).map Account.reputationScore = some 0
    ∧ (c4Store (GetTokenPK "a")).map Account.tokenBalance = some 928
    ∧ computeBidcost 1 0 = 2
    ∧ calculateScore 1 0 = 0
    ∧ (RunAuction true c4Store [⟨"a", "u", 1⟩]).1 = .error .noWinner :=
  ⟨Reachable.foldSpend _ (Reachable.initTokens ["a"] Reachable.empty),
   by decide, by decide, by decide, by decide, by decide⟩

/-- C4 (amended): a round whose batch contains exactly one affordable bid
of an existing team returns that bid's team whenever the bid's score is
strictly positive (which holds for every priority 2–10 at non-negative
reputation and for priority 1 at positive reputation).  When the score is
0 or below — possible at priority 1 with reputation ≤ 0, or with
sufficiently negative reachable reputation — the strict comparison against
the initial running maximum of 0 never selects the bid and the round fails
with no winner instead. -/
theorem RunAuction_single_affordable_bid_wins (putOk : Bool) (s : Store)
    (bid : Bid) (row : Account)
    (h : s (GetTokenPK bid.teamID) = some row)
    (haff : computeBidcost bid.priority row.reputationScore ≤ row.tokenBalance)
    (hpos : 0 < calculateScore bid.priority row.reputationScore) :
    (RunAuction putOk s [bid]).1 = .ok bid.teamID := by
  have hlt := not_lt.mpr haff
  simp only [RunAuction, auctionLoop, GetTokenBalance, h, RecordBid,
    if_neg hlt, gt_iff_lt, if_pos hpos]
  rw [SpendTokens_success_pair s bid row h haff]

/-- C4 (amended, witness). -/
theorem RunAuction_single_affordable_bid_wins_witness :
    (RunAuction true (InitializeTokens emptyStore ["a"]) [⟨"a", "u", 5⟩]).1
      = .ok "a" :=
  RunAuction_single_affordable_bid_wins true (InitializeTokens emptyStore ["a"])
    ⟨"a", "u", 5⟩ initialAccount rfl (by decide) (by decide)

/-- C6 (counterexample): a reachable state where both teams exist with
reputation 0 and balance 928; both priority-1 bids are affordable (cost 2)
and have equal scores (0 each), yet the round returns no winner instead of
the first-listed team `a`: neither equal score is strictly greater than
the initial running maximum of 0. -/
theorem RunAuction_equal_zero_scores_no_winner :
    Reachable c6Store
    ∧ (c6Store (GetTokenPK "a")).map Account.reputationScore = some 0
    ∧ (c6Store (GetTokenPK "b")).map Account.reputationScore = some 0
    ∧ (c6Store (GetTokenPK "a")).map Account.tokenBalance = some 928
    ∧ (c6Store (GetTokenPK "b")).map Account.tokenBalance = some 928
    ∧ computeBidcost 1 0 = 2
    ∧ (RunAuction true c6Store [⟨"a", "u", 1⟩, ⟨"b", "u", 1⟩]).1
        = .error .noWinner :=
  ⟨Reachable.foldSpend _ (Reachable.foldSpend _
      (Reachable.initTokens ["a", "b"] Reachable.empty)),
   by decide, by decide, by decide, by decide, by decide, by decide⟩

/-- C6 (amended): winner selection walks the batch in input order and a
later bid replaces the current best only when its score is strictly
greater; for every batch of two eligible (affordable, existing-team) bids
with equal scores, the round returns the team of the bid listed first —
provided that common score is strictly positive.  When the equal score is
0 or below, neither bid beats the initial running maximum of 0 and the
round fails with no winner instead. -/
theorem RunAuction_equal_scores_first_bid_wins (putOk : Bool) (s : Store)
    (b1 b2 : Bid) (r1 r2 : Account)
    (h1 : s (GetTokenPK b1.teamID) = some r1)
    (h2 : s (GetTokenPK b2.teamID) = some r2)
    (haff1 : computeBidcost b1.priority r1.reputationScore ≤ r1.tokenBalance)
    (haff2 : computeBidcost b2.priority r2.reputationScore ≤ r2.tokenBalance)
    (heq : calculateScore b2.priority r2.reputationScore
        = calculateScore b1.priority r1.reputationScore)
    (hpos : 0 < calculateScore b1.priority r1.reputationScore) :
    (RunAuction putOk s [b1, b2]).1 = .ok b1.teamID := by
  have hlt1 := not_lt.mpr haff1
  have hlt2 := not_lt.mpr haff2
  have hnotgt : ¬ (calculateScore b1.priority r1.reputationScore
      < calculateScore b2.priority r2.reputationScore) := by
    rw [heq]
    exact lt_irrefl _
  simp only [RunAuction, auctionLoop, GetTokenBalance, h1, h2, RecordBid,
    if_neg hlt1, if_neg hlt2, gt_iff_lt, if_pos hpos, if_neg hnotgt]
  rw [SpendTokens_success_pair s b1 r1 h1 haff1]

/-- C6 (amended, witness): two bids of equal positive score, the first
listed wins. -/
theorem RunAuction_equal_scores_first_bid_wins_witness :
    (RunAuction true (InitializeTokens emptyStore ["a", "b"])
        [⟨"a", "u", 5⟩, ⟨"b", "u", 5⟩]).1 = .ok "a" :=
  RunAuction_equal_scores_first_bid_wins true
    (InitializeTokens emptyStore ["a", "b"]) ⟨"a", "u", 5⟩ ⟨"b", "u", 5⟩
    initialAccount initialAccount rfl rfl (by decide) (by decide) rfl
    (by decide)

/-! ## Reputation upper-bound invariant (claim C10) -/

lemma repOK_setStore {s : Store} {k : String} {a : Account}
    (hs : RepOK s) (ha : a.reputationScore ≤ 100) : RepOK (setStore s k a) := by
  intro k2 row h2
  unfold setStore at h2
  by_cases hk : k2 = k
  · rw [if_pos hk] at h2
    cases h2
    exact ha
  · rw [if_neg hk] at h2
    exact hs k2 row h2

lemma repOK_spend (s : Store) (bid : Bid) (hs : RepOK s) :
    RepOK ((SpendTokens s bid).2) := by
  rcases hrow : s (GetTokenPK bid.teamID) with _ | row
  · simp only [SpendTokens, GetTokenBalance, hrow]
    exact hs
  · have hr100 : row.reputationScore ≤ 100 := hs _ _ hrow
    by_cases hlt :
        row.tokenBalance < computeBidcost bid.priority row.reputationScore
    · rw [SpendTokens_fail s bid row hrow hlt]
      exact hs
    · obtain ⟨_, h2, h3⟩ :=
        SpendTokens_success s bid row hrow (not_lt.mp hlt)
      intro k2 row2 hk2
      by_cases hk : k2 = GetTokenPK bid.teamID
      · rw [hk, h2] at hk2
        cases hk2
        unfold debitedRow
        dsimp only
        split_ifs <;> omega
      · rw [h3 k2 hk] at hk2
        exact hs k2 row2 hk2

lemma repOK_initTokens (teams : List String) {s : Store} (hs : RepOK s) :
    RepOK (InitializeTokens s teams) := by
  induction teams generalizing s with
  | nil => exact hs
  | cons t rest ih =>
    have hstep :
        RepOK (match s (GetTokenPK t) with
               | some _ => s
               | none => setStore s (GetTokenPK t) initialAccount) := by
      rcases hrow : s (GetTokenPK t) with _ | row
      · exact repOK_setStore hs (by norm_num [initialAccount])
      · exact hs
    exact ih hstep

lemma repOK_refill (teams : List String) {s : Store} (hs : RepOK s) :
    RepOK (RefillTokens s teams) := by
  induction teams generalizing s with
  | nil => exact hs
  | cons t rest ih =>
    have hstep :
        RepOK (match s t with
               | some row =>
                 setStore s t
                   { row with tokenBalance := 1000, reputationScore := 100 }
               | none =>
                 setStore s t
                   { tokenBalance := 1000, reputationScore := 100,
                     priorityUsage := fun _ => 0 }) := by
      rcases hrow : s t with _ | row
      · exact repOK_setStore hs (by norm_num)
      · exact repOK_setStore hs (by norm_num)
    exact ih hstep

lemma repOK_auction (putOk : Bool) (s : Store) (bids : List Bid)
    (hs : RepOK s) : RepOK ((RunAuction putOk s bids).2) := by
  unfold RunAuction
  rcases auctionLoop putOk s bids none 0 with e | best
  · exact hs
  · rcases best with _ | winningBid
    · exact hs
    · rcases hsp : SpendTokens s winningBid with ⟨res, s2⟩
      have hs2 : RepOK s2 := by
        have hall := repOK_spend s winningBid hs
        rw [hsp] at hall
        exact hall
      dsimp only
      rw [hsp]
      rcases res with e | v
      · exact hs2
      · exact hs2

/-- C10: every account reachable from the empty store through the public
operations (`InitializeTokens`, `SpendTokens`, `RefillTokens`,
`RunAuction`) has reputation at most 100: initialization and refill write
exactly 100, and the only other mutation of the reputation is the
debit-triggered penalty, which only ever decreases it. -/
theorem Reachable_reputation_le_100 (s : Store) (hs : Reachable s)
    (k : String) (row : Account) (h : s k = some row) :
    row.reputationScore ≤ 100 := by
  induction hs generalizing k row with
  | empty => exact absurd h (by simp [emptyStore])
  | initTokens teams _ ih => exact repOK_initTokens teams ih k row h
  | spend bid _ ih => exact repOK_spend _ bid ih k row h
  | refill teams _ ih => exact repOK_refill teams ih k row h
  | auction putOk bids _ ih => exact repOK_auction putOk _ bids ih k row h

/-- C10 (witness). -/
theorem Reachable_reputation_le_100_witness :
    initialAccount.reputationScore ≤ 100 :=
  Reachable_reputation_le_100 (InitializeTokens emptyStore ["a"])
    (Reachable.initTokens ["a"] Reachable.empty) (GetTokenPK "a")
    initialAccount rfl
